import Mathlib

/-!
Shallow embedding of the h3-service repository (src/app.py,
src/scripts/ingest_raster.py, src/scripts/ingest_vector.py).

Modelling conventions:
* Python floats are idealised as exact rationals (ℚ); float constants such
  as 0.002 and 1e-15 become the exact rationals 2/1000 and 1/10^15.
* The transcendental function `lambda x, math.cos(math.radians(x))` cannot be
  a computable Lean function on ℚ; it is passed as an explicit oracle
  parameter `cos_rad : ℚ → ℚ`.  Every theorem quantifies over the oracle, so
  each result holds in particular for the true cosine.
* The H3 native library is opaque from the point of view of this code; it is
  modelled as a record `H3Env` of abstract functions.  Cell identifiers are
  an arbitrary type with decidable equality.  `latlng_to_cell` is modelled
  as a total function (the library indexes any finite coordinate).
* `int(math.ceil(q))` on a nonnegative rational is `Int.toNat ⌈q⌉`.
* `int(n / scale)` with `scale = math.sqrt((nx*ny)/max_pts)` is the real
  floor `⌊n / √(nx·ny/m)⌋ = ⌊√(n²·m/(nx·ny))⌋`, which equals
  `Nat.sqrt (n*n*m / (nx*ny))` with truncating Nat division; the bridge
  lemmas `nat_sqrt_of_floor_div` and `floor_div_real_sqrt` below prove this
  identity against the real-valued semantics.
* A Python `set` accumulated in iteration order and listed at the end is
  modelled as a duplicate-free list built by `insert_cell`.
* `raise SystemExit(msg)` / `raise HTTPException(code, msg)` are modelled by
  `Except.error`.
-/

/-- A (longitude, latitude) pair, the element type of a GeoJSON ring. -/
abbrev LngLat : Type := ℚ × ℚ

/-- app.py `_normalize_ring_lnglat`: drop a duplicated closing point, keeping
the ring open internally. -/
def _normalize_ring_lnglat (ring : List LngLat) : List LngLat :=
  if 2 ≤ ring.length ∧ ring.headD (0, 0) = ring.getLastD (0, 0) then
    ring.dropLast
  else
    ring

/-- app.py `_bbox`: (min lng, min lat, max lng, max lat) over the ring.
Python's `min`/`max` of the coordinate lists is a fold seeded with the head
(for an empty ring Python raises; the theorems below always assume a
nonempty ring, where the seed value is irrelevant). -/
def _bbox (ring : List LngLat) : ℚ × ℚ × ℚ × ℚ :=
  let lngs := ring.map Prod.fst
  let lats := ring.map Prod.snd
  (lngs.foldl min (lngs.headD 0), lats.foldl min (lats.headD 0),
   lngs.foldl max (lngs.headD 0), lats.foldl max (lats.headD 0))

/-- Width of the bounding box of a ring (`maxx - minx` in app.py). -/
def bbox_w (ring : List LngLat) : ℚ := (_bbox ring).2.2.1 - (_bbox ring).1

/-- Height of the bounding box of a ring (`maxy - miny` in app.py). -/
def bbox_h (ring : List LngLat) : ℚ := (_bbox ring).2.2.2 - (_bbox ring).2.1

/-- Mid latitude of the bounding box (`(miny + maxy) / 2.0` in app.py). -/
def lat_mid_of (ring : List LngLat) : ℚ := ((_bbox ring).2.1 + (_bbox ring).2.2.2) / 2

/-- app.py line 99: the edge-crossing condition `(y1 > lat) != (y2 > lat)`
of the ray-casting test. -/
def edge_crosses (lat y1 y2 : ℚ) : Bool :=
  decide (y1 > lat) != decide (y2 > lat)

/-- app.py line 101: the denominator `y2 - y1 + 1e-15` of the edge
intersection formula. -/
def edge_denom (y1 y2 : ℚ) : ℚ := y2 - y1 + 1 / 1000000000000000

/-- app.py `_point_in_poly`: even-odd ray casting over an open ring. -/
def _point_in_poly (lng lat : ℚ) (ring : List LngLat) : Bool :=
  let n := ring.length
  (List.range n).foldl
    (fun inside i =>
      let p1 := ring.getD i (0, 0)
      let p2 := ring.getD ((i + 1) % n) (0, 0)
      if edge_crosses lat p1.2 p2.2 then
        let xin := (p2.1 - p1.1) * (lat - p1.2) / edge_denom p1.2 p2.2 + p1.1
        if xin > lng then !inside else inside
      else inside)
    false

/-- app.py line 115 inside `_estimate_deg_step`:
`nx = max(1, int(math.ceil(w / step_lng)))` with
`step_lng = 0.002 / max(cos(radians(lat_mid)), 0.1)`. -/
def naive_nx (cos_rad : ℚ → ℚ) (lat_mid w : ℚ) : ℕ :=
  max 1 (Int.toNat ⌈w / ((2 / 1000) / max (cos_rad lat_mid) (1 / 10))⌉)

/-- app.py line 116 inside `_estimate_deg_step`:
`ny = max(1, int(math.ceil(h / step_lat)))` with `step_lat = 0.002`. -/
def naive_ny (h : ℚ) : ℕ :=
  max 1 (Int.toNat ⌈h / (2 / 1000)⌉)

/-- app.py `_estimate_deg_step`: derive sampling steps (in degrees) and grid
dimensions from the bounding box, then scale the dimensions down when the
naive grid would exceed the point budget.  `res` is accepted and unused,
exactly as in the source.  The scaled count `int(nx / scale)` with
`scale = sqrt((nx*ny)/max_pts)` equals `Nat.sqrt (nx*nx*max_pts / (nx*ny))`
(see `floor_div_real_sqrt`). -/
def _estimate_deg_step (cos_rad : ℚ → ℚ) (res : ℕ) (lat_mid : ℚ) (max_pts : ℕ)
    (w h : ℚ) : ℚ × ℚ × ℕ × ℕ :=
  let nx := naive_nx cos_rad lat_mid w
  let ny := naive_ny h
  let nx2 := if max_pts < nx * ny then max 1 (Nat.sqrt (nx * nx * max_pts / (nx * ny))) else nx
  let ny2 := if max_pts < nx * ny then max 1 (Nat.sqrt (ny * ny * max_pts / (nx * ny))) else ny
  ((if 0 < nx2 then w / (nx2 : ℚ) else w), (if 0 < ny2 then h / (ny2 : ℚ) else h), nx2, ny2)

/-- `cells.add` on a Python set, as order-preserving duplicate-free list
insertion. -/
def insert_cell {Cell : Type} [DecidableEq Cell] (c : Cell) (cells : List Cell) : List Cell :=
  if c ∈ cells then cells else cells ++ [c]

/-- The double scan loop of `_sample_polyfill` (app.py lines 143-152):
pixel-center sample points over the bounding box, filtered by
`_point_in_poly` and indexed with H3. -/
def grid_cells {Cell : Type} [DecidableEq Cell] (toCell : ℚ → ℚ → ℕ → Cell)
    (ring : List LngLat) (res : ℕ) (minx miny step_lng step_lat : ℚ)
    (nx ny : ℕ) : List Cell :=
  (List.range nx).foldl
    (fun acc (ix : ℕ) =>
      let lng := minx + ((ix : ℚ) + 1 / 2) * step_lng
      (List.range ny).foldl
        (fun acc2 (iy : ℕ) =>
          let lat := miny + ((iy : ℚ) + 1 / 2) * step_lat
          if _point_in_poly lng lat ring then insert_cell (toCell lat lng res) acc2
          else acc2)
        acc)
    []

/-- app.py `_sample_polyfill`: fallback polygon rasterisation.  Scans a grid
inside the bounding box, filters by point-in-polygon, indexes with H3 and
returns the deduplicated cells; degenerate bounding boxes yield the cell of
the first vertex, and an empty scan falls back to the vertex centroid.
The Python default `max_pts=2500` is passed explicitly by callers here. -/
def _sample_polyfill {Cell : Type} [DecidableEq Cell] (toCell : ℚ → ℚ → ℕ → Cell)
    (cos_rad : ℚ → ℚ) (ring_lnglat : List LngLat) (res : ℕ) (max_pts : ℕ) : List Cell :=
  let ring := _normalize_ring_lnglat ring_lnglat
  let b := _bbox ring
  let minx := b.1
  let miny := b.2.1
  let maxx := b.2.2.1
  let maxy := b.2.2.2
  let w := maxx - minx
  let h := maxy - miny
  if w ≤ 0 ∨ h ≤ 0 then
    [toCell (ring.headD (0, 0)).2 (ring.headD (0, 0)).1 res]
  else
    let lat_mid := (miny + maxy) / 2
    let e := _estimate_deg_step cos_rad res lat_mid max_pts w h
    let cells := grid_cells toCell ring res minx miny e.1 e.2.1 e.2.2.1 e.2.2.2
    if cells = [] then
      [toCell ((ring.map Prod.snd).sum / (ring.length : ℚ))
              ((ring.map Prod.fst).sum / (ring.length : ℚ)) res]
    else cells

/-- The surface of the external H3 library (and the one math function used),
as seen by app.py.  `has_polygon_to_cells` / `has_polyfill_v3` model the
`hasattr` version probes; the two native polyfill entry points may fail
(`Except.error` models a raised exception); `latlng_to_cell` and the cosine
oracle are total; `grid_disk` may fail. -/
structure H3Env (Cell : Type) where
  has_polygon_to_cells : Bool
  has_polyfill_v3 : Bool
  polygon_to_cells : List (List LngLat) → ℕ → Except String (List Cell)
  polyfill_v3 : List (List LngLat) → ℕ → Except String (List Cell)
  latlng_to_cell : ℚ → ℚ → ℕ → Cell
  grid_disk : Cell → ℕ → Except String (List Cell)
  cos_rad : ℚ → ℚ

/-- An HTTP error response: status code and detail message. -/
abbrev HTTPError : Type := ℕ × String

/-- app.py `latlng_to_h3` (GET /h3/index): bounds-check lat/lng and res,
then index. -/
def latlng_to_h3_endpoint {Cell : Type} (env : H3Env Cell) (lat lng : ℚ) (res : ℤ) :
    Except HTTPError Cell :=
  if ¬(-90 ≤ lat ∧ lat ≤ 90 ∧ -180 ≤ lng ∧ lng ≤ 180) then
    Except.error (400, "lat/lng fora dos limites")
  else if res < 0 ∨ 15 < res then
    Except.error (400, "res must be between 0 and 15")
  else
    Except.ok (env.latlng_to_cell lat lng res.toNat)

/-- app.py `kring` (GET /h3/kring).  The parameter declaration
`k: conint(ge=0, le=10)` makes the framework reject any k outside [0, 10]
before the handler runs (modelled as a 422 validation error); inside the
handler a `grid_disk` failure becomes a 400. -/
def kring_endpoint {Cell : Type} (env : H3Env Cell) (cell : Cell) (k : ℤ) :
    Except HTTPError (List Cell) :=
  if k < 0 ∨ 10 < k then
    Except.error (422, "k fora do intervalo permitido (0..10)")
  else
    match env.grid_disk cell k.toNat with
    | Except.ok l => Except.ok l
    | Except.error e => Except.error (400, e)

/-- The closed GeoJSON ring re-built by the `polyfill` endpoint before the
native calls (app.py line 187). -/
def closed_gj (r0 : List LngLat) : List (List LngLat) :=
  let ring := _normalize_ring_lnglat r0
  [ring ++ [ring.headD (0, 0)]]

/-- app.py `polyfill` (POST /h3/polyfill).  Validates the outer ring, then
tries: the v4 native call if present, else the v3 native call if present,
else raises; any exception from that `try` block (including a failed native
call) falls back to `_sample_polyfill` with the default budget 2500. -/
def polyfill_endpoint {Cell : Type} [DecidableEq Cell] (env : H3Env Cell)
    (coordinates : List (List LngLat)) (res : ℕ) :
    Except HTTPError (List Cell × ℕ) :=
  match coordinates with
  | [] => Except.error (400, "Polígono inválido: mínimo de 3 pontos no anel externo.")
  | r0 :: _ =>
    if r0.length < 3 then
      Except.error (400, "Polígono inválido: mínimo de 3 pontos no anel externo.")
    else
      let ring := _normalize_ring_lnglat r0
      let gj := closed_gj r0
      let cells :=
        if env.has_polygon_to_cells then
          match env.polygon_to_cells gj res with
          | Except.ok l => l
          | Except.error _ => _sample_polyfill env.latlng_to_cell env.cos_rad ring res 2500
        else if env.has_polyfill_v3 then
          match env.polyfill_v3 gj res with
          | Except.ok l => l
          | Except.error _ => _sample_polyfill env.latlng_to_cell env.cos_rad ring res 2500
        else
          _sample_polyfill env.latlng_to_cell env.cos_rad ring res 2500
      Except.ok (cells, cells.length)

/-- ingest_raster.py line 90-94: one step of the per-cell accumulator
`acc[cell] = [v, 1]` / `s[0] += v; s[1] += 1`, on an association list keyed
by cell (a Python dict has unique keys; updates hit the first match). -/
def acc_update {Cell : Type} [DecidableEq Cell] :
    List (Cell × ℚ × ℕ) → Cell → ℚ → List (Cell × ℚ × ℕ)
  | [], c, v => [(c, v, 1)]
  | e :: rest, c, v =>
    if e.1 = c then (c, e.2.1 + v, e.2.2 + 1) :: rest
    else e :: acc_update rest c v

/-- ingest_raster.py lines 69-94: fold the per-pixel loop over the list of
(cell, ndvi) contributions of the valid sampled pixels (pixels whose NDVI is
NaN or whose indexing raised are skipped by the loop and are not in this
list). -/
def accumulate {Cell : Type} [DecidableEq Cell] (samples : List (Cell × ℚ)) :
    List (Cell × ℚ × ℕ) :=
  samples.foldl (fun acc p => acc_update acc p.1 p.2) []

/-- ingest_raster.py line 99: `rows = [... 'ndvi_mean': s[0] / s[1] ...]`. -/
def ndvi_rows {Cell : Type} [DecidableEq Cell] (samples : List (Cell × ℚ)) :
    List (Cell × ℚ) :=
  (accumulate samples).map (fun e => (e.1, e.2.1 / (e.2.2 : ℚ)))

/-- ingest_raster.py `main` after the pixel loop: `raise SystemExit(...)` on
an empty accumulator, otherwise write the rows (writing is modelled by
returning them). -/
def ingest_raster_main {Cell : Type} [DecidableEq Cell] (samples : List (Cell × ℚ)) :
    Except String (List (Cell × ℚ)) :=
  let acc := accumulate samples
  if acc = [] then Except.error "Nenhuma célula acumulada (NDVI todo NaN?)"
  else Except.ok (ndvi_rows samples)

/-- ingest_vector.py lines 83-89: build the output rows from the cells of
each feature (`if not cells: continue`, then one row per cell carrying the
feature's attributes). -/
def vector_rows {Cell A : Type} (features : List (List Cell × A)) : List (Cell × A) :=
  features.foldl
    (fun rows f => if f.1.isEmpty then rows else rows ++ f.1.map (fun c => (c, f.2)))
    []

/-- ingest_vector.py `main` after the feature loop: `raise SystemExit(...)`
on empty rows, otherwise write them. -/
def ingest_vector_main {Cell A : Type} (features : List (List Cell × A)) :
    Except String (List (Cell × A)) :=
  let rows := vector_rows features
  if rows.isEmpty then Except.error "Nenhuma célula gerada."
  else Except.ok rows

/-- A concrete environment used by concrete instances below: cells are
(lat, lng) pairs, indexing is the identity on coordinates, the v4 native
polyfill is present but always fails, the v3 native polyfill is present and
always answers `[(42, 42)]`, and the cosine oracle is constantly 1 (its
value at latitude 0). -/
def env0 : H3Env (ℚ × ℚ) where
  has_polygon_to_cells := true
  has_polyfill_v3 := true
  polygon_to_cells := fun _ _ => Except.error "boom"
  polyfill_v3 := fun _ _ => Except.ok [(42, 42)]
  latlng_to_cell := fun lat lng _ => (lat, lng)
  grid_disk := fun c _ => Except.ok [c]
  cos_rad := fun _ => 1

/-- The identity cell-indexing function used by concrete instances. -/
def id_cell : ℚ → ℚ → ℕ → ℚ × ℚ := fun lat lng _ => (lat, lng)

/-- The constant cosine oracle used by concrete instances (the value of
`cos(radians(lat))` at latitude 0). -/
def one_cos : ℚ → ℚ := fun _ => 1

/-- An L-shaped ring (bottom and right strips of a small square) whose single
bounding-box-center sample point lies outside the polygon. -/
def sliver_ring : List LngLat :=
  [(0, 0), (1/1000, 0), (1/1000, 1/1000), (9/10000, 1/1000), (9/10000, 1/10000),
   (0, 1/10000)]

/-- The thin, tall counterexample ring for the point-budget claim: bounding
box 0.001° × 0.008°. -/
def budget_cex_ring : List LngLat := [(0, 0), (1/1000, 0), (1/1000, 1/125), (0, 1/125)]

/-- The (cell, value) contributions of the sample list that belong to cell
`c`. -/
def cell_vals {Cell : Type} [DecidableEq Cell] (samples : List (Cell × ℚ)) (c : Cell) :
    List (Cell × ℚ) :=
  samples.filter (fun p => decide (p.1 = c))

/-- Loop invariant of the raster-ingestion accumulator: the keys are
distinct, every entry holds the exact running sum, count of its cell's
contributions among the processed samples, and only cells with no
contribution are absent. -/
def acc_inv {Cell : Type} [DecidableEq Cell] (samples : List (Cell × ℚ))
    (acc : List (Cell × ℚ × ℕ)) : Prop :=
  (acc.map Prod.fst).Nodup ∧
  (∀ e ∈ acc,
    e.2.1 = ((cell_vals samples e.1).map Prod.snd).sum ∧
    e.2.2 = (cell_vals samples e.1).length ∧ 0 < e.2.2) ∧
  (∀ c, c ∉ acc.map Prod.fst → cell_vals samples c = [])

/-! ### General helper lemmas -/

/-- Evaluate `Nat.sqrt` from a squeeze (kernel reduction of `Nat.sqrt` is
unavailable, so concrete values are certified this way). -/
lemma nat_sqrt_eval {n k : ℕ} (h1 : k * k ≤ n) (h2 : n < (k + 1) * (k + 1)) :
    Nat.sqrt n = k := by
  have ha : k ≤ Nat.sqrt n := Nat.le_sqrt.mpr h1
  have hb : Nat.sqrt n < k + 1 := Nat.sqrt_lt.mpr h2
  omega

/-- Evaluate a rational ceiling from a squeeze. -/
lemma ceil_eval {q : ℚ} {n : ℤ} (h1 : (n : ℚ) - 1 < q) (h2 : q ≤ (n : ℚ)) :
    ⌈q⌉ = n :=
  Int.ceil_eq_iff.mpr ⟨h1, h2⟩

/-- Bridge to the real-valued semantics: the floor of the real square root
of a nonnegative rational `a / b` is `Nat.sqrt` of the truncating natural
division.  This justifies evaluating Python's `int(...)` of a float square
root by `Nat.sqrt` on natural divisions. -/
lemma nat_sqrt_of_floor_div (a b : ℕ) (hb : 0 < b) :
    ⌊Real.sqrt ((a : ℝ) / (b : ℝ))⌋ = (Nat.sqrt (a / b) : ℤ) := by
  have hx : (0 : ℝ) ≤ (a : ℝ) / b := by positivity
  have h1 : ((Nat.sqrt (a / b) : ℝ)) ≤ Real.sqrt ((a : ℝ) / b) := by
    rw [show ((Nat.sqrt (a / b) : ℝ)) = Real.sqrt ((Nat.sqrt (a / b) : ℝ) ^ 2) from
      (Real.sqrt_sq (by positivity)).symm]
    apply Real.sqrt_le_sqrt
    have hkk : (Nat.sqrt (a / b) * Nat.sqrt (a / b) : ℕ) ≤ a / b := Nat.sqrt_le _
    calc ((Nat.sqrt (a / b) : ℝ)) ^ 2
        = ((Nat.sqrt (a / b) * Nat.sqrt (a / b) : ℕ) : ℝ) := by push_cast; ring
      _ ≤ ((a / b : ℕ) : ℝ) := by exact_mod_cast hkk
      _ ≤ (a : ℝ) / b := Nat.cast_div_le
  have h2 : Real.sqrt ((a : ℝ) / b) < (Nat.sqrt (a / b) : ℝ) + 1 := by
    have hnat : a / b < (Nat.sqrt (a / b) + 1) * (Nat.sqrt (a / b) + 1) := by
      simpa [Nat.succ_eq_add_one] using Nat.lt_succ_sqrt (a / b)
    have ha2 : a < b * (a / b + 1) := by
      have hdm := Nat.div_add_mod a b
      have hmod := Nat.mod_lt a hb
      have hms : b * (a / b + 1) = b * (a / b) + b := by ring
      omega
    have hab : (a : ℝ) / b < ((Nat.sqrt (a / b) : ℝ) + 1) ^ 2 := by
      rw [div_lt_iff₀ (by exact_mod_cast hb)]
      have hstep : a < b * ((Nat.sqrt (a / b) + 1) * (Nat.sqrt (a / b) + 1)) :=
        lt_of_lt_of_le ha2 (Nat.mul_le_mul_left b hnat)
      calc (a : ℝ) < ((b * ((Nat.sqrt (a / b) + 1) * (Nat.sqrt (a / b) + 1)) : ℕ) : ℝ) := by
            exact_mod_cast hstep
        _ = ((Nat.sqrt (a / b) : ℝ) + 1) ^ 2 * b := by push_cast; ring
    calc Real.sqrt ((a : ℝ) / b) < Real.sqrt (((Nat.sqrt (a / b) : ℝ) + 1) ^ 2) :=
          Real.sqrt_lt_sqrt hx hab
      _ = (Nat.sqrt (a / b) : ℝ) + 1 := Real.sqrt_sq (by positivity)
  rw [Int.floor_eq_iff]
  constructor
  · exact_mod_cast h1
  · push_cast
    exact h2

/-- Bridge to the real-valued semantics of the scaling step of
`_estimate_deg_step`: `int(n / scale)` with `scale = sqrt((a : float) / m)`
— in the source `a = nx * ny` and `m = max_pts` — equals
`Nat.sqrt (n * n * m / a)` with truncating natural division, which is the
form used in the embedding. -/
lemma floor_div_real_sqrt (n a m : ℕ) (ha : 0 < a) :
    ⌊(n : ℝ) / Real.sqrt ((a : ℝ) / (m : ℝ))⌋ = (Nat.sqrt (n * n * m / a) : ℤ) := by
  have heq : (n : ℝ) / Real.sqrt ((a : ℝ) / m) =
      Real.sqrt (((n * n * m : ℕ) : ℝ) / (a : ℝ)) := by
    have harg : ((n * n * m : ℕ) : ℝ) / (a : ℝ) = ((n : ℝ) ^ 2) / ((a : ℝ) / (m : ℝ)) := by
      push_cast
      rw [div_div_eq_mul_div]
      ring
    rw [harg, Real.sqrt_div (by positivity : (0 : ℝ) ≤ (n : ℝ) ^ 2),
      Real.sqrt_sq (by positivity : (0 : ℝ) ≤ (n : ℝ))]
  rw [heq, nat_sqrt_of_floor_div _ _ ha]

lemma insert_cell_length_le {Cell : Type} [DecidableEq Cell] (c : Cell) (l : List Cell) :
    (insert_cell c l).length ≤ l.length + 1 := by
  unfold insert_cell
  split
  · omega
  · simp

lemma insert_cell_ne_nil {Cell : Type} [DecidableEq Cell] (c : Cell) (l : List Cell) :
    insert_cell c l ≠ [] := by
  unfold insert_cell
  split
  · intro h
    subst h
    simp_all
  · simp

lemma insert_cell_nodup {Cell : Type} [DecidableEq Cell] (c : Cell) (l : List Cell)
    (h : l.Nodup) : (insert_cell c l).Nodup := by
  unfold insert_cell
  split
  · exact h
  · simp_all [List.nodup_append]

lemma foldl_length_le {α β : Type} (g : List β → α → List β) (k : ℕ)
    (hg : ∀ acc x, (g acc x).length ≤ acc.length + k) :
    ∀ (L : List α) (acc : List β), (L.foldl g acc).length ≤ acc.length + k * L.length := by
  intro L
  induction L with
  | nil => intro acc; simp
  | cons x L ih =>
    intro acc
    have h1 := ih (g acc x)
    have h2 := hg acc x
    have h3 : k * (x :: L).length = k * L.length + k := by
      simp [List.length_cons, Nat.mul_succ]
    simp only [List.foldl_cons]
    omega

lemma foldl_invariant {α β : Type} (P : β → Prop) (g : β → α → β)
    (hg : ∀ acc x, P acc → P (g acc x)) :
    ∀ (L : List α) (acc : β), P acc → P (L.foldl g acc) := by
  intro L
  induction L with
  | nil => intro acc h; simpa using h
  | cons x L ih =>
    intro acc h
    simpa only [List.foldl_cons] using ih (g acc x) (hg acc x h)

lemma foldl_fixed {α β : Type} (g : β → α → β) :
    ∀ (L : List α) (acc : β), (∀ a x, x ∈ L → g a x = a) → L.foldl g acc = acc := by
  intro L
  induction L with
  | nil => intro acc _; rfl
  | cons x L ih =>
    intro acc h
    simp only [List.foldl_cons]
    rw [h acc x (by simp)]
    exact ih acc fun a y hy => h a y (by simp [hy])

/-- The scan of `grid_cells` visits `nx * ny` sample points, each adding at
most one cell. -/
lemma grid_cells_length_le {Cell : Type} [DecidableEq Cell] (toCell : ℚ → ℚ → ℕ → Cell)
    (ring : List LngLat) (res : ℕ) (minx miny step_lng step_lat : ℚ) (nx ny : ℕ) :
    (grid_cells toCell ring res minx miny step_lng step_lat nx ny).length ≤ nx * ny := by
  unfold grid_cells
  have h := foldl_length_le
    (g := fun acc (ix : ℕ) =>
      let lng := minx + ((ix : ℚ) + 1 / 2) * step_lng
      (List.range ny).foldl
        (fun acc2 (iy : ℕ) =>
          let lat := miny + ((iy : ℚ) + 1 / 2) * step_lat
          if _point_in_poly lng lat ring then insert_cell (toCell lat lng res) acc2
          else acc2)
        acc)
    (k := ny)
    (by
      intro acc ix
      have h2 := foldl_length_le
        (g := fun acc2 (iy : ℕ) =>
          let lat := miny + ((iy : ℚ) + 1 / 2) * step_lat
          if _point_in_poly (minx + ((ix : ℚ) + 1 / 2) * step_lng) lat ring then
            insert_cell (toCell lat (minx + ((ix : ℚ) + 1 / 2) * step_lng) res) acc2
          else acc2)
        (k := 1)
        (by
          intro acc2 iy
          dsimp only
          split
          · exact insert_cell_length_le _ _
          · omega)
        (List.range ny) acc
      simpa only [List.length_range, one_mul] using h2)
    (List.range nx) []
  simpa only [List.length_nil, List.length_range, Nat.zero_add, Nat.mul_comm] using h

/-- The scan of `grid_cells` never records a duplicate cell. -/
lemma grid_cells_nodup {Cell : Type} [DecidableEq Cell] (toCell : ℚ → ℚ → ℕ → Cell)
    (ring : List LngLat) (res : ℕ) (minx miny step_lng step_lat : ℚ) (nx ny : ℕ) :
    (grid_cells toCell ring res minx miny step_lng step_lat nx ny).Nodup := by
  unfold grid_cells
  refine foldl_invariant List.Nodup _ ?_ _ _ (by simp)
  intro acc ix h
  refine foldl_invariant List.Nodup _ ?_ _ _ h
  intro acc2 iy h2
  dsimp only
  split
  · exact insert_cell_nodup _ _ h2
  · exact h2

/-- Unfolding of `_sample_polyfill` through the named bounding-box helpers
(definitional). -/
lemma sample_polyfill_eq {Cell : Type} [DecidableEq Cell] (toCell : ℚ → ℚ → ℕ → Cell)
    (cos_rad : ℚ → ℚ) (ring : List LngLat) (res max_pts : ℕ) :
    _sample_polyfill toCell cos_rad ring res max_pts =
      (let r := _normalize_ring_lnglat ring
       if bbox_w r ≤ 0 ∨ bbox_h r ≤ 0 then
         [toCell (r.headD (0, 0)).2 (r.headD (0, 0)).1 res]
       else
         let e := _estimate_deg_step cos_rad res (lat_mid_of r) max_pts (bbox_w r) (bbox_h r)
         let cells := grid_cells toCell r res (_bbox r).1 (_bbox r).2.1 e.1 e.2.1 e.2.2.1 e.2.2.2
         if cells = [] then
           [toCell ((r.map Prod.snd).sum / (r.length : ℚ))
                   ((r.map Prod.fst).sum / (r.length : ℚ)) res]
         else cells) := rfl

/-- C3: a ring whose bounding box has zero width or zero height takes the
degenerate branch of `_sample_polyfill` and yields exactly the cell of the
first vertex of the normalized ring. -/
theorem degenerate_ring_single_cell {Cell : Type} [DecidableEq Cell]
    (toCell : ℚ → ℚ → ℕ → Cell) (cos_rad : ℚ → ℚ) (ring : List LngLat)
    (res max_pts : ℕ) (hne : ring ≠ [])
    (hdeg : bbox_w (_normalize_ring_lnglat ring) = 0 ∨
            bbox_h (_normalize_ring_lnglat ring) = 0) :
    _sample_polyfill toCell cos_rad ring res max_pts =
      [toCell ((_normalize_ring_lnglat ring).headD (0, 0)).2
              ((_normalize_ring_lnglat ring).headD (0, 0)).1 res] := by
  rw [sample_polyfill_eq]
  have hle : bbox_w (_normalize_ring_lnglat ring) ≤ 0 ∨
      bbox_h (_normalize_ring_lnglat ring) ≤ 0 := by
    rcases hdeg with h | h
    · exact Or.inl (le_of_eq h)
    · exact Or.inr (le_of_eq h)
  simp only [if_pos hle]

/-- C3 witness: a vertical segment ring (zero bounding-box width) yields the
single cell of its first vertex (with identity indexing, `(lat, lng)`). -/
theorem degenerate_ring_single_cell_witness :
    _sample_polyfill id_cell one_cos [((0 : ℚ), (0 : ℚ)), (0, 1), (0, 2)] 9 2500 =
      [((0 : ℚ), (0 : ℚ))] := by
  have hne : ([((0 : ℚ), (0 : ℚ)), (0, 1), (0, 2)] : List LngLat) ≠ [] := by simp
  have hnorm : _normalize_ring_lnglat [((0 : ℚ), (0 : ℚ)), (0, 1), (0, 2)] =
      [((0 : ℚ), (0 : ℚ)), (0, 1), (0, 2)] := by
    norm_num [_normalize_ring_lnglat, List.getLastD, Prod.ext_iff]
  have hdeg : bbox_w (_normalize_ring_lnglat [((0 : ℚ), (0 : ℚ)), (0, 1), (0, 2)]) = 0 := by
    rw [hnorm]
    norm_num [bbox_w, _bbox]
  have h := degenerate_ring_single_cell id_cell one_cos
    [((0 : ℚ), (0 : ℚ)), (0, 1), (0, 2)] 9 2500 hne (Or.inl hdeg)
  rw [h, hnorm]
  rfl

/-- C5: `_sample_polyfill` gives the same result on a genuinely open ring
(first vertex distinct from last) and on its closed form (first vertex
repeated at the end): `_normalize_ring_lnglat` maps both to the open ring. -/
theorem ring_closure_invariant {Cell : Type} [DecidableEq Cell]
    (toCell : ℚ → ℚ → ℕ → Cell) (cos_rad : ℚ → ℚ) (ring : List LngLat)
    (res max_pts : ℕ) (hlen : 3 ≤ ring.length)
    (hopen : ring.headD (0, 0) ≠ ring.getLastD (0, 0)) :
    _sample_polyfill toCell cos_rad (ring ++ [ring.headD (0, 0)]) res max_pts =
      _sample_polyfill toCell cos_rad ring res max_pts := by
  obtain ⟨x, xs, rfl⟩ : ∃ x xs, ring = x :: xs := by
    cases ring with
    | nil => simp at hlen
    | cons x xs => exact ⟨x, xs, rfl⟩
  have h1 : _normalize_ring_lnglat ((x :: xs) ++ [(x :: xs).headD (0, 0)]) = x :: xs := by
    unfold _normalize_ring_lnglat
    rw [if_pos]
    · exact List.dropLast_concat
    · constructor
      · simp
      · rw [List.getLastD_eq_getLast?]
        rw [show x :: xs ++ [(x :: xs).headD (0, 0)] =
              (x :: xs) ++ [(x :: xs).headD (0, 0)] from rfl,
            List.getLast?_concat]
        rfl
  have h2 : _normalize_ring_lnglat (x :: xs) = x :: xs := by
    unfold _normalize_ring_lnglat
    rw [if_neg]
    intro h
    exact hopen h.2
  unfold _sample_polyfill
  rw [h1, h2]

/-- C5 witness: an open triangle and its closed form produce the same cell
list. -/
theorem ring_closure_invariant_witness :
    _sample_polyfill id_cell one_cos
        ([((0 : ℚ), (0 : ℚ)), (1, 0), (0, 1)] ++ [((0 : ℚ), (0 : ℚ))]) 9 2500 =
      _sample_polyfill id_cell one_cos [((0 : ℚ), (0 : ℚ)), (1, 0), (0, 1)] 9 2500 := by
  have h := ring_closure_invariant id_cell one_cos
    [((0 : ℚ), (0 : ℚ)), (1, 0), (0, 1)] 9 2500 (by simp)
    (by norm_num [List.headD, List.getLastD, Prod.ext_iff])
  simpa [List.headD] using h

/-- C8: both ingestion mains abort with an error message (`SystemExit`,
a nonzero process exit) instead of producing output when no per-cell data
was accumulated / no rows were generated. -/
theorem ingest_abort_on_empty {Cell A : Type} [DecidableEq Cell]
    (samples : List (Cell × ℚ)) (features : List (List Cell × A))
    (hs : accumulate samples = []) (hf : vector_rows features = []) :
    ingest_raster_main samples = Except.error "Nenhuma célula acumulada (NDVI todo NaN?)" ∧
    ingest_vector_main features = Except.error "Nenhuma célula gerada." := by
  constructor
  · unfold ingest_raster_main
    rw [if_pos hs]
  · unfold ingest_vector_main
    rw [if_pos]
    rw [hf]
    rfl

/-- C8 witness: an all-NaN raster (no valid samples) and a vector file whose
only feature produced no cells both abort. -/
theorem ingest_abort_on_empty_witness :
    ingest_raster_main ([] : List (ℕ × ℚ)) =
      Except.error "Nenhuma célula acumulada (NDVI todo NaN?)" ∧
    ingest_vector_main [(([] : List ℕ), (0 : ℚ))] =
      Except.error "Nenhuma célula gerada." :=
  ingest_abort_on_empty [] [(([] : List ℕ), (0 : ℚ))] rfl rfl

/-- C9: on any nonempty ring, `_sample_polyfill` returns a nonempty,
duplicate-free list of cells: every branch produces at least one cell and
accumulation deduplicates. -/
theorem sampler_nonempty_nodup {Cell : Type} [DecidableEq Cell]
    (toCell : ℚ → ℚ → ℕ → Cell) (cos_rad : ℚ → ℚ) (ring : List LngLat)
    (res max_pts : ℕ) (hne : ring ≠ []) :
    _sample_polyfill toCell cos_rad ring res max_pts ≠ [] ∧
    (_sample_polyfill toCell cos_rad ring res max_pts).Nodup := by
  rw [sample_polyfill_eq]
  simp only
  split
  · simp
  · split
    next hcells => simp
    next hcells => exact ⟨hcells, grid_cells_nodup _ _ _ _ _ _ _ _ _⟩

/-- C9 witness: a concrete triangle yields a nonempty duplicate-free cell
list. -/
theorem sampler_nonempty_nodup_witness :
    _sample_polyfill id_cell one_cos [((0 : ℚ), (0 : ℚ)), (1, 0), (0, 1)] 9 2500 ≠ [] ∧
    (_sample_polyfill id_cell one_cos [((0 : ℚ), (0 : ℚ)), (1, 0), (0, 1)] 9 2500).Nodup :=
  sampler_nonempty_nodup id_cell one_cos _ 9 2500 (by simp)

/-- C10 (amended): the crossing condition `(y1 > lat) != (y2 > lat)` does
force `y1 ≠ y2`, and the denominator `y2 - y1 + 1e-15` of `_point_in_poly`
is then nonzero except in the one case `y2 - y1 = -1e-15`, which the
`+ 1e-15` guard does not cover. -/
theorem edge_denominator_guard (lat y1 y2 : ℚ) (h : edge_crosses lat y1 y2 = true) :
    y1 ≠ y2 ∧ (y2 - y1 ≠ -(1 / 1000000000000000) → edge_denom y1 y2 ≠ 0) := by
  simp only [edge_crosses, bne_iff_ne, ne_eq, decide_eq_decide] at h
  constructor
  · intro he
    exact h (by rw [he])
  · intro hne h0
    apply hne
    unfold edge_denom at h0
    linarith

/-- C10 counterexample: with `lat = 0`, `y1 = 5e-16`, `y2 = -5e-16` the edge
is crossed (so the division is evaluated) and the denominator
`y2 - y1 + 1e-15` is exactly zero, refuting the claim that the crossing
condition makes the denominator nonzero. -/
theorem edge_denominator_guard_counterexample :
    edge_crosses 0 (1 / 2000000000000000) (-(1 / 2000000000000000)) = true ∧
    edge_denom (1 / 2000000000000000) (-(1 / 2000000000000000)) = 0 := by
  constructor
  · simp only [edge_crosses, bne_iff_ne, ne_eq, decide_eq_decide]
    norm_num
  · norm_num [edge_denom]

/-- C10 witness: a concretely crossed edge with `y1 = 1`, `y2 = 0` where the
guard applies. -/
theorem edge_denominator_guard_witness :
    edge_crosses 0 1 0 = true ∧
    ((1 : ℚ) ≠ 0 ∧ ((0 : ℚ) - 1 ≠ -(1 / 1000000000000000) → edge_denom 1 0 ≠ 0)) := by
  have hc : edge_crosses 0 1 0 = true := by
    simp only [edge_crosses, bne_iff_ne, ne_eq, decide_eq_decide]
    norm_num
  exact ⟨hc, edge_denominator_guard 0 1 0 hc⟩

/-- C4: on a non-degenerate ring none of whose grid sample points passes the
point-in-polygon test, `_sample_polyfill` returns exactly the single cell of
the vertex centroid (arithmetic mean of the normalized ring's coordinates). -/
theorem sliver_ring_centroid_cell {Cell : Type} [DecidableEq Cell]
    (toCell : ℚ → ℚ → ℕ → Cell) (cos_rad : ℚ → ℚ) (ring : List LngLat)
    (res max_pts : ℕ) (hne : ring ≠ [])
    (hw : 0 < bbox_w (_normalize_ring_lnglat ring))
    (hh : 0 < bbox_h (_normalize_ring_lnglat ring))
    (hmiss : ∀ ix iy : ℕ,
      ix < (_estimate_deg_step cos_rad res (lat_mid_of (_normalize_ring_lnglat ring))
              max_pts (bbox_w (_normalize_ring_lnglat ring))
              (bbox_h (_normalize_ring_lnglat ring))).2.2.1 →
      iy < (_estimate_deg_step cos_rad res (lat_mid_of (_normalize_ring_lnglat ring))
              max_pts (bbox_w (_normalize_ring_lnglat ring))
              (bbox_h (_normalize_ring_lnglat ring))).2.2.2 →
      ¬(_point_in_poly
          ((_bbox (_normalize_ring_lnglat ring)).1 + ((ix : ℚ) + 1 / 2) *
            (_estimate_deg_step cos_rad res (lat_mid_of (_normalize_ring_lnglat ring))
              max_pts (bbox_w (_normalize_ring_lnglat ring))
              (bbox_h (_normalize_ring_lnglat ring))).1)
          ((_bbox (_normalize_ring_lnglat ring)).2.1 + ((iy : ℚ) + 1 / 2) *
            (_estimate_deg_step cos_rad res (lat_mid_of (_normalize_ring_lnglat ring))
              max_pts (bbox_w (_normalize_ring_lnglat ring))
              (bbox_h (_normalize_ring_lnglat ring))).2.1)
          (_normalize_ring_lnglat ring) = true)) :
    _sample_polyfill toCell cos_rad ring res max_pts =
      [toCell (((_normalize_ring_lnglat ring).map Prod.snd).sum /
                 ((_normalize_ring_lnglat ring).length : ℚ))
              (((_normalize_ring_lnglat ring).map Prod.fst).sum /
                 ((_normalize_ring_lnglat ring).length : ℚ)) res] := by
  rw [sample_polyfill_eq]
  simp only
  rw [if_neg (by
    push_neg
    exact ⟨hw, hh⟩)]
  have hgc : grid_cells toCell (_normalize_ring_lnglat ring) res
      (_bbox (_normalize_ring_lnglat ring)).1 (_bbox (_normalize_ring_lnglat ring)).2.1
      (_estimate_deg_step cos_rad res (lat_mid_of (_normalize_ring_lnglat ring))
        max_pts (bbox_w (_normalize_ring_lnglat ring))
        (bbox_h (_normalize_ring_lnglat ring))).1
      (_estimate_deg_step cos_rad res (lat_mid_of (_normalize_ring_lnglat ring))
        max_pts (bbox_w (_normalize_ring_lnglat ring))
        (bbox_h (_normalize_ring_lnglat ring))).2.1
      (_estimate_deg_step cos_rad res (lat_mid_of (_normalize_ring_lnglat ring))
        max_pts (bbox_w (_normalize_ring_lnglat ring))
        (bbox_h (_normalize_ring_lnglat ring))).2.2.1
      (_estimate_deg_step cos_rad res (lat_mid_of (_normalize_ring_lnglat ring))
        max_pts (bbox_w (_normalize_ring_lnglat ring))
        (bbox_h (_normalize_ring_lnglat ring))).2.2.2 = [] := by
    unfold grid_cells
    apply foldl_fixed
    intro a ix hix
    apply foldl_fixed
    intro a2 iy hiy
    dsimp only
    rw [if_neg (hmiss ix iy (List.mem_range.mp hix) (List.mem_range.mp hiy))]
  rw [hgc, if_pos rfl]

set_option maxRecDepth 8000 in
/-- C4 witness: on `sliver_ring` (1×1 sample grid, center point outside) the
sampler returns exactly the centroid cell `(11/30000, 19/30000)` under
identity indexing. -/
theorem sliver_ring_centroid_cell_witness :
    _sample_polyfill id_cell one_cos sliver_ring 9 2500 =
      [((11/30000 : ℚ), (19/30000 : ℚ))] := by
  have hnorm : _normalize_ring_lnglat sliver_ring = sliver_ring := by
    norm_num [_normalize_ring_lnglat, sliver_ring, List.getLastD, Prod.ext_iff]
  have hbb : _bbox sliver_ring = (0, 0, 1/1000, 1/1000) := by
    norm_num [_bbox, sliver_ring, min_def, max_def, Prod.ext_iff]
  have hw : bbox_w sliver_ring = 1/1000 := by rw [bbox_w, hbb]; norm_num
  have hh : bbox_h sliver_ring = 1/1000 := by rw [bbox_h, hbb]; norm_num
  have hmid : lat_mid_of sliver_ring = 1/2000 := by rw [lat_mid_of, hbb]; norm_num
  have hc1 : (⌈(1:ℚ)/1000 / (2 / 1000 / max (one_cos (1/2000)) (1 / 10))⌉ : ℤ) = 1 := by
    have harg : (1:ℚ)/1000 / (2 / 1000 / max (one_cos (1/2000)) (1 / 10)) = 1/2 := by
      norm_num [one_cos, max_def]
    rw [harg]
    exact ceil_eval (by norm_num) (by norm_num)
  have hc2 : (⌈(1:ℚ)/1000 / (2 / 1000)⌉ : ℤ) = 1 := by
    have harg : (1:ℚ)/1000 / (2 / 1000) = 1/2 := by norm_num
    rw [harg]
    exact ceil_eval (by norm_num) (by norm_num)
  have hest : _estimate_deg_step one_cos 9 (1/2000) 2500 (1/1000) (1/1000) =
      (1/1000, 1/1000, 1, 1) := by
    simp only [_estimate_deg_step, naive_nx, naive_ny]
    rw [hc1, hc2]
    norm_num
  have hpnp : _point_in_poly (1/2000) (1/2000) sliver_ring = false := by
    norm_num [_point_in_poly, sliver_ring, edge_crosses, edge_denom, List.range_succ,
      List.getD_cons_zero, List.getD_cons_succ, min_def, max_def]
  have h := sliver_ring_centroid_cell id_cell one_cos sliver_ring 9 2500
    (by simp [sliver_ring]) (by rw [hnorm, hw]; norm_num) (by rw [hnorm, hh]; norm_num)
    (by
      intro ix iy hx hy
      rw [hnorm, hw, hh, hmid, hest] at hx hy ⊢
      have hx0 : ix = 0 := by simpa using hx
      have hy0 : iy = 0 := by simpa using hy
      subst hx0
      subst hy0
      rw [hbb]
      norm_num [hpnp])
  rw [h, hnorm]
  have hsum : ((sliver_ring.map Prod.snd).sum / (sliver_ring.length : ℚ)) = 11/30000 := by
    norm_num [sliver_ring]
  have hsum2 : ((sliver_ring.map Prod.fst).sum / (sliver_ring.length : ℚ)) = 19/30000 := by
    norm_num [sliver_ring]
  rw [hsum, hsum2]
  rfl

/-- C2 (amended): the polyfill endpoint picks one native call — v4
(`polygon_to_cells`) if present, otherwise v3 (`polyfill`) if present — and
any failure of that single attempt (or the absence of both) falls directly
to the manual sampler; the request always receives a cell list.  In
particular, when v4 is present and fails, v3 is *not* tried. -/
theorem polyfill_fallback_to_sampler {Cell : Type} [DecidableEq Cell]
    (env : H3Env Cell) (r0 : List LngLat) (rest : List (List LngLat)) (res : ℕ)
    (hlen : 3 ≤ r0.length) :
    (∃ cells : List Cell,
        polyfill_endpoint env (r0 :: rest) res = Except.ok (cells, cells.length)) ∧
    (env.has_polygon_to_cells = true →
      ∀ e, env.polygon_to_cells (closed_gj r0) res = Except.error e →
        polyfill_endpoint env (r0 :: rest) res =
          Except.ok
            (_sample_polyfill env.latlng_to_cell env.cos_rad (_normalize_ring_lnglat r0) res 2500,
             (_sample_polyfill env.latlng_to_cell env.cos_rad (_normalize_ring_lnglat r0) res 2500).length)) ∧
    (env.has_polygon_to_cells = false → env.has_polyfill_v3 = true →
      ∀ e, env.polyfill_v3 (closed_gj r0) res = Except.error e →
        polyfill_endpoint env (r0 :: rest) res =
          Except.ok
            (_sample_polyfill env.latlng_to_cell env.cos_rad (_normalize_ring_lnglat r0) res 2500,
             (_sample_polyfill env.latlng_to_cell env.cos_rad (_normalize_ring_lnglat r0) res 2500).length)) ∧
    (env.has_polygon_to_cells = false → env.has_polyfill_v3 = false →
      polyfill_endpoint env (r0 :: rest) res =
        Except.ok
          (_sample_polyfill env.latlng_to_cell env.cos_rad (_normalize_ring_lnglat r0) res 2500,
           (_sample_polyfill env.latlng_to_cell env.cos_rad (_normalize_ring_lnglat r0) res 2500).length)) := by
  simp only [polyfill_endpoint]
  rw [if_neg (by omega)]
  refine ⟨⟨_, rfl⟩, ?_, ?_, ?_⟩
  · intro hv4 e herr
    rw [hv4, herr]
    rfl
  · intro hv4 hv3 e herr
    rw [hv4, hv3, herr]
    rfl
  · intro hv4 hv3
    rw [hv4, hv3]
    rfl

/-- C2 witness: with v4 present but failing, a concrete request still gets a
cell list. -/
theorem polyfill_fallback_to_sampler_witness :
    (3 ≤ ([((0 : ℚ), (0 : ℚ)), (0, 1), (0, 2)] : List LngLat).length) ∧
    (∃ cells : List (ℚ × ℚ),
        polyfill_endpoint env0 [[((0 : ℚ), (0 : ℚ)), (0, 1), (0, 2)]] 9 =
          Except.ok (cells, cells.length)) :=
  ⟨by simp,
   (polyfill_fallback_to_sampler env0 [((0 : ℚ), (0 : ℚ)), (0, 1), (0, 2)] [] 9 (by simp)).1⟩

/-- C2 counterexample: in `env0` the v4 native call is present and fails and
the v3 native call is present and succeeds with `[(42, 42)]`, yet the
endpoint answers with the manual sampler's result `[(0, 0)]` — the cascade
never reaches v3, refuting the claimed v4 → v3 → sampler order. -/
theorem polyfill_skips_v3_counterexample :
    env0.has_polygon_to_cells = true ∧
    env0.polygon_to_cells (closed_gj [((0 : ℚ), (0 : ℚ)), (0, 1), (0, 2)]) 9 =
      Except.error "boom" ∧
    env0.polyfill_v3 (closed_gj [((0 : ℚ), (0 : ℚ)), (0, 1), (0, 2)]) 9 =
      Except.ok [((42 : ℚ), (42 : ℚ))] ∧
    polyfill_endpoint env0 [[((0 : ℚ), (0 : ℚ)), (0, 1), (0, 2)]] 9 =
      Except.ok ([((0 : ℚ), (0 : ℚ))], 1) ∧
    polyfill_endpoint env0 [[((0 : ℚ), (0 : ℚ)), (0, 1), (0, 2)]] 9 ≠
      Except.ok ([((42 : ℚ), (42 : ℚ))], 1) := by
  have hnorm : _normalize_ring_lnglat [((0 : ℚ), (0 : ℚ)), (0, 1), (0, 2)] =
      [((0 : ℚ), (0 : ℚ)), (0, 1), (0, 2)] := by
    norm_num [_normalize_ring_lnglat, List.getLastD, Prod.ext_iff]
  have hs : _sample_polyfill env0.latlng_to_cell env0.cos_rad
      (_normalize_ring_lnglat [((0 : ℚ), (0 : ℚ)), (0, 1), (0, 2)]) 9 2500 =
      [((0 : ℚ), (0 : ℚ))] := by
    rw [hnorm, sample_polyfill_eq]
    rw [if_pos]
    · rw [hnorm]
      rfl
    · left
      rw [hnorm]
      norm_num [bbox_w, _bbox]
  have hend : polyfill_endpoint env0 [[((0 : ℚ), (0 : ℚ)), (0, 1), (0, 2)]] 9 =
      Except.ok ([((0 : ℚ), (0 : ℚ))], 1) := by
    simp only [polyfill_endpoint]
    rw [if_neg (by norm_num)]
    have hv4 : env0.has_polygon_to_cells = true := rfl
    have herr : env0.polygon_to_cells (closed_gj [((0 : ℚ), (0 : ℚ)), (0, 1), (0, 2)]) 9 =
        Except.error "boom" := rfl
    rw [hv4, herr, hs]
    rfl
  refine ⟨rfl, rfl, rfl, hend, ?_⟩
  rw [hend]
  intro hcontra
  norm_num [Prod.ext_iff] at hcontra

/-- C6: the REST endpoints enforce their input bounds — GET /h3/index
rejects out-of-range lat/lng with HTTP 400 and out-of-range res with HTTP
400; GET /h3/kring accepts k only in [0, 10] (out-of-range k is rejected by
the `conint(ge=0, le=10)` validation and in-range k reaches the library);
POST /h3/polyfill rejects an outer ring of fewer than 3 points with HTTP
400. -/
theorem endpoint_bounds_validation {Cell : Type} [DecidableEq Cell] (env : H3Env Cell) :
    (∀ (lat lng : ℚ) (res : ℤ), (lat < -90 ∨ 90 < lat ∨ lng < -180 ∨ 180 < lng) →
      latlng_to_h3_endpoint env lat lng res =
        Except.error (400, "lat/lng fora dos limites")) ∧
    (∀ (lat lng : ℚ) (res : ℤ),
      (-90 ≤ lat ∧ lat ≤ 90 ∧ -180 ≤ lng ∧ lng ≤ 180) → (res < 0 ∨ 15 < res) →
      latlng_to_h3_endpoint env lat lng res =
        Except.error (400, "res must be between 0 and 15")) ∧
    (∀ (cell : Cell) (k : ℤ), (k < 0 ∨ 10 < k) →
      kring_endpoint env cell k =
        Except.error (422, "k fora do intervalo permitido (0..10)")) ∧
    (∀ (cell : Cell) (k : ℤ) (l : List Cell), 0 ≤ k → k ≤ 10 →
      env.grid_disk cell k.toNat = Except.ok l →
      kring_endpoint env cell k = Except.ok l) ∧
    (∀ (coordinates : List (List LngLat)) (res : ℕ),
      (coordinates.headD []).length < 3 →
      polyfill_endpoint env coordinates res =
        Except.error (400, "Polígono inválido: mínimo de 3 pontos no anel externo.")) := by
  refine ⟨?_, ?_, ?_, ?_, ?_⟩
  · intro lat lng res hout
    unfold latlng_to_h3_endpoint
    rw [if_pos]
    intro ⟨h1, h2, h3, h4⟩
    rcases hout with h | h | h | h <;> linarith
  · intro lat lng res hin hres
    unfold latlng_to_h3_endpoint
    rw [if_neg (by push_neg; exact hin), if_pos hres]
  · intro cell k hk
    unfold kring_endpoint
    rw [if_pos hk]
  · intro cell k l hk0 hk10 hdisk
    unfold kring_endpoint
    rw [if_neg (by omega), hdisk]
  · intro coordinates res hshort
    cases coordinates with
    | nil => rfl
    | cons r0 rest =>
      simp only [polyfill_endpoint]
      rw [if_pos]
      simpa using hshort

/-- C6 witness: concrete out-of-bounds requests are rejected and a concrete
in-bounds k-ring request is served. -/
theorem endpoint_bounds_validation_witness :
    latlng_to_h3_endpoint env0 91 0 9 = Except.error (400, "lat/lng fora dos limites") ∧
    latlng_to_h3_endpoint env0 10 20 16 =
      Except.error (400, "res must be between 0 and 15") ∧
    kring_endpoint env0 ((1 : ℚ), (2 : ℚ)) 11 =
      Except.error (422, "k fora do intervalo permitido (0..10)") ∧
    kring_endpoint env0 ((1 : ℚ), (2 : ℚ)) 1 = Except.ok [((1 : ℚ), (2 : ℚ))] ∧
    polyfill_endpoint env0 [[((0 : ℚ), (0 : ℚ)), (0, 1)]] 9 =
      Except.error (400, "Polígono inválido: mínimo de 3 pontos no anel externo.") := by
  refine ⟨?_, ?_, ?_, ?_, ?_⟩
  · exact (endpoint_bounds_validation env0).1 91 0 9 (by norm_num)
  · exact (endpoint_bounds_validation env0).2.1 10 20 16 (by norm_num) (by norm_num)
  · exact (endpoint_bounds_validation env0).2.2.1 ((1 : ℚ), (2 : ℚ)) 11 (by norm_num)
  · exact (endpoint_bounds_validation env0).2.2.2.1 ((1 : ℚ), (2 : ℚ)) 1
      [((1 : ℚ), (2 : ℚ))] (by norm_num) (by norm_num) rfl
  · exact (endpoint_bounds_validation env0).2.2.2.2 [[((0 : ℚ), (0 : ℚ)), (0, 1)]] 9 (by simp)

lemma cell_vals_append {Cell : Type} [DecidableEq Cell] (samples : List (Cell × ℚ))
    (p : Cell × ℚ) (c : Cell) :
    cell_vals (samples ++ [p]) c =
      cell_vals samples c ++ if p.1 = c then [p] else [] := by
  unfold cell_vals
  rw [List.filter_append]
  congr 1
  by_cases h : p.1 = c <;> simp [List.filter, h]

lemma acc_update_keys {Cell : Type} [DecidableEq Cell] (A : List (Cell × ℚ × ℕ))
    (c : Cell) (v : ℚ) :
    (acc_update A c v).map Prod.fst =
      if c ∈ A.map Prod.fst then A.map Prod.fst else A.map Prod.fst ++ [c] := by
  induction A with
  | nil => simp [acc_update]
  | cons a rest ih =>
    by_cases ha : a.1 = c
    · simp [acc_update, ha]
    · simp only [acc_update, if_neg ha, List.map_cons, ih]
      have hmem : (c ∈ a.1 :: rest.map Prod.fst) ↔ c ∈ rest.map Prod.fst := by
        constructor
        · intro h
          rcases List.mem_cons.mp h with h | h
          · exact absurd h.symm ha
          · exact h
        · intro h
          exact List.mem_cons_of_mem _ h
      by_cases hc : c ∈ rest.map Prod.fst
      · rw [if_pos hc, if_pos (hmem.mpr hc)]
      · rw [if_neg hc, if_neg (fun h => hc (hmem.mp h))]
        simp

lemma acc_update_mem_spec {Cell : Type} [DecidableEq Cell] (A : List (Cell × ℚ × ℕ))
    (c : Cell) (v : ℚ) (hnd : (A.map Prod.fst).Nodup) :
    ∀ e ∈ acc_update A c v,
      (e.1 = c ∧ ((c ∉ A.map Prod.fst ∧ e = (c, v, 1)) ∨
        (∃ s n, (c, s, n) ∈ A ∧ e = (c, s + v, n + 1)))) ∨
      (e.1 ≠ c ∧ e ∈ A) := by
  induction A with
  | nil =>
    intro e he
    simp only [acc_update, List.mem_singleton] at he
    subst he
    exact Or.inl ⟨rfl, Or.inl ⟨by simp, rfl⟩⟩
  | cons a rest ih =>
    intro e he
    simp only [List.map_cons, List.nodup_cons] at hnd
    by_cases ha : a.1 = c
    · simp only [acc_update, if_pos ha, List.mem_cons] at he
      rcases he with he | he
      · subst he
        refine Or.inl ⟨rfl, Or.inr ⟨a.2.1, a.2.2, ?_, rfl⟩⟩
        have : a = (c, a.2.1, a.2.2) := by
          rw [← ha]
        rw [← this]
        simp
      · have hec : e.1 ≠ c := by
          intro hc
          apply hnd.1
          rw [ha]
          rw [← hc]
          exact List.mem_map_of_mem Prod.fst he
        exact Or.inr ⟨hec, List.mem_cons_of_mem a he⟩
    · simp only [acc_update, if_neg ha, List.mem_cons] at he
      rcases he with he | he
      · subst he
        exact Or.inr ⟨ha, List.mem_cons_self _ _⟩
      · rcases ih hnd.2 e he with ⟨hec, hcase⟩ | ⟨hec, hmem⟩
        · refine Or.inl ⟨hec, ?_⟩
          rcases hcase with ⟨hnot, hval⟩ | ⟨s, n, hmem, hval⟩
          · refine Or.inl ⟨?_, hval⟩
            simp only [List.map_cons, List.mem_cons]
            intro hc
            rcases hc with hc | hc
            · exact ha hc.symm
            · exact hnot hc
          · exact Or.inr ⟨s, n, List.mem_cons_of_mem a hmem, hval⟩
        · exact Or.inr ⟨hec, List.mem_cons_of_mem a hmem⟩

lemma acc_inv_step {Cell : Type} [DecidableEq Cell] (samples : List (Cell × ℚ))
    (p : Cell × ℚ) (acc : List (Cell × ℚ × ℕ)) (h : acc_inv samples acc) :
    acc_inv (samples ++ [p]) (acc_update acc p.1 p.2) := by
  obtain ⟨hnd, hent, habs⟩ := h
  refine ⟨?_, ?_, ?_⟩
  · rw [acc_update_keys]
    split
    · exact hnd
    next hnot => simp [List.nodup_append, hnd, hnot]
  · intro e he
    rcases acc_update_mem_spec acc p.1 p.2 hnd e he with ⟨hec, hcase⟩ | ⟨hec, hmem⟩
    · rcases hcase with ⟨hnot, hval⟩ | ⟨s, n, hmem, hval⟩
      · subst hval
        have hempty : cell_vals samples p.1 = [] := habs p.1 hnot
        rw [cell_vals_append]
        simp [hempty]
      · subst hval
        obtain ⟨hs, hn, hpos⟩ := hent (p.1, s, n) hmem
        rw [cell_vals_append]
        simp only at hs hn ⊢
        constructor
        · simp [hs]
        constructor
        · simp [hn]
        · omega
    · obtain ⟨hs, hn, hpos⟩ := hent e hmem
      rw [cell_vals_append]
      have hne : ¬(p.1 = e.1) := fun hc => hec hc.symm
      rw [if_neg hne]
      simp only [List.append_nil]
      exact ⟨hs, hn, hpos⟩
  · intro c hc
    rw [acc_update_keys] at hc
    have hc2 : c ∉ acc.map Prod.fst ∧ c ≠ p.1 := by
      by_cases hp : p.1 ∈ acc.map Prod.fst
      · rw [if_pos hp] at hc
        constructor
        · exact hc
        · intro hce
          exact hc (hce ▸ hp)
      · rw [if_neg hp] at hc
        simp only [List.mem_append, List.mem_singleton, not_or] at hc
        exact ⟨hc.1, hc.2⟩
    rw [cell_vals_append, habs c hc2.1]
    have hne : ¬(p.1 = c) := fun h => hc2.2 h.symm
    rw [if_neg hne]
    rfl

lemma accumulate_append_single {Cell : Type} [DecidableEq Cell]
    (samples : List (Cell × ℚ)) (p : Cell × ℚ) :
    accumulate (samples ++ [p]) = acc_update (accumulate samples) p.1 p.2 := by
  unfold accumulate
  rw [List.foldl_append]
  rfl

lemma accumulate_inv {Cell : Type} [DecidableEq Cell] (samples : List (Cell × ℚ)) :
    acc_inv samples (accumulate samples) := by
  induction samples using List.reverseRecOn with
  | nil =>
    refine ⟨by simp [accumulate], by simp [accumulate], ?_⟩
    intro c _
    simp [cell_vals]
  | append_singleton l p ih =>
    rw [accumulate_append_single]
    exact acc_inv_step l p (accumulate l) ih

/-- C7: every row written by the raster-ingestion script carries as
`ndvi_mean` the exact arithmetic mean — accumulated sum over accumulated
count — of the NDVI values of the valid sampled pixels indexed to that
cell. -/
theorem ndvi_mean_correct {Cell : Type} [DecidableEq Cell] (samples : List (Cell × ℚ))
    (c : Cell) (m : ℚ) (hmem : (c, m) ∈ ndvi_rows samples) :
    cell_vals samples c ≠ [] ∧
    m = ((cell_vals samples c).map Prod.snd).sum / ((cell_vals samples c).length : ℚ) := by
  obtain ⟨e, he, heq⟩ := List.mem_map.mp hmem
  obtain ⟨hs, hn, hpos⟩ := (accumulate_inv samples).2.1 e he
  have hc : e.1 = c := congrArg Prod.fst heq
  have hm : e.2.1 / (e.2.2 : ℚ) = m := congrArg Prod.snd heq
  subst hc
  constructor
  · intro h0
    rw [h0] at hn
    simp at hn
    omega
  · rw [← hm, hs, hn]

/-- C7 witness: for samples `[(5, 2), (5, 4), (7, 10)]` the row for cell 5
has mean 3 = (2 + 4) / 2. -/
theorem ndvi_mean_correct_witness :
    cell_vals [((5 : ℕ), (2 : ℚ)), (5, 4), (7, 10)] 5 ≠ [] ∧
    (3 : ℚ) = ((cell_vals [((5 : ℕ), (2 : ℚ)), (5, 4), (7, 10)] 5).map Prod.snd).sum /
      ((cell_vals [((5 : ℕ), (2 : ℚ)), (5, 4), (7, 10)] 5).length : ℚ) :=
  ndvi_mean_correct [((5 : ℕ), (2 : ℚ)), (5, 4), (7, 10)] 5 3
    (by norm_num [ndvi_rows, accumulate, acc_update])

lemma nat_sqrt_mul_le (a b m : ℕ) (ha : 0 < a) (hb : 0 < b) :
    Nat.sqrt (a * a * m / (a * b)) * Nat.sqrt (b * b * m / (a * b)) ≤ m := by
  have h1 : a * a * m / (a * b) = a * m / b := by
    rw [Nat.mul_assoc, Nat.mul_div_mul_left _ _ ha]
  have h2 : b * b * m / (a * b) = b * m / a := by
    rw [Nat.mul_comm a b, Nat.mul_assoc, Nat.mul_div_mul_left _ _ hb]
  rw [h1, h2]
  have hd1 : a * m / b * b ≤ a * m := Nat.div_mul_le_self _ _
  have hd2 : b * m / a * a ≤ b * m := Nat.div_mul_le_self _ _
  have hprod : a * m / b * (b * m / a) ≤ m * m := by
    have hmul := Nat.mul_le_mul hd1 hd2
    have heq : a * m / b * b * (b * m / a * a) = a * m / b * (b * m / a) * (a * b) := by
      ring
    have heq2 : a * m * (b * m) = m * m * (a * b) := by
      ring
    rw [heq, heq2] at hmul
    exact Nat.le_of_mul_le_mul_right hmul (Nat.mul_pos ha hb)
  have h3 : Nat.sqrt (a * m / b) * Nat.sqrt (a * m / b) ≤ a * m / b := Nat.sqrt_le _
  have h4 : Nat.sqrt (b * m / a) * Nat.sqrt (b * m / a) ≤ b * m / a := Nat.sqrt_le _
  have h5 : Nat.sqrt (a * m / b) * Nat.sqrt (b * m / a) *
      (Nat.sqrt (a * m / b) * Nat.sqrt (b * m / a)) ≤ m * m := by
    have hr : Nat.sqrt (a * m / b) * Nat.sqrt (b * m / a) *
        (Nat.sqrt (a * m / b) * Nat.sqrt (b * m / a)) =
        Nat.sqrt (a * m / b) * Nat.sqrt (a * m / b) *
        (Nat.sqrt (b * m / a) * Nat.sqrt (b * m / a)) := by
      ring
    rw [hr]
    exact le_trans (Nat.mul_le_mul h3 h4) hprod
  calc Nat.sqrt (a * m / b) * Nat.sqrt (b * m / a)
      = Nat.sqrt (Nat.sqrt (a * m / b) * Nat.sqrt (b * m / a) *
          (Nat.sqrt (a * m / b) * Nat.sqrt (b * m / a))) := (Nat.sqrt_eq _).symm
    _ ≤ Nat.sqrt (m * m) := Nat.sqrt_le_sqrt h5
    _ = m := Nat.sqrt_eq m

lemma naive_nx_pos (cos_rad : ℚ → ℚ) (lat_mid w : ℚ) : 0 < naive_nx cos_rad lat_mid w :=
  Nat.lt_of_lt_of_le Nat.zero_lt_one (le_max_left 1 _)

lemma naive_ny_pos (h : ℚ) : 0 < naive_ny h :=
  Nat.lt_of_lt_of_le Nat.zero_lt_one (le_max_left 1 _)

/-- The grid dimensions produced by `_estimate_deg_step` respect the point
budget whenever neither dimension is clamped back up to 1 by the
`max(1, ...)` after scaling — equivalently whenever each naive dimension is
at most `max_pts` times the other. -/
lemma estimate_counts_le (cos_rad : ℚ → ℚ) (res : ℕ) (lat_mid : ℚ) (max_pts : ℕ)
    (w h : ℚ) (hm : 0 < max_pts)
    (hx : naive_nx cos_rad lat_mid w ≤ naive_ny h * max_pts)
    (hy : naive_ny h ≤ naive_nx cos_rad lat_mid w * max_pts) :
    (_estimate_deg_step cos_rad res lat_mid max_pts w h).2.2.1 *
      (_estimate_deg_step cos_rad res lat_mid max_pts w h).2.2.2 ≤ max_pts := by
  have hnx : 0 < naive_nx cos_rad lat_mid w := naive_nx_pos cos_rad lat_mid w
  have hny : 0 < naive_ny h := naive_ny_pos h
  simp only [_estimate_deg_step]
  by_cases hcond : max_pts < naive_nx cos_rad lat_mid w * naive_ny h
  · rw [if_pos hcond, if_pos hcond]
    have hs1 : 1 ≤ Nat.sqrt (naive_nx cos_rad lat_mid w * naive_nx cos_rad lat_mid w * max_pts /
        (naive_nx cos_rad lat_mid w * naive_ny h)) := by
      apply Nat.le_sqrt.mpr
      rw [Nat.mul_assoc, Nat.mul_div_mul_left _ _ hnx, Nat.one_mul]
      exact (Nat.one_le_div_iff hny).mpr hy
    have hs2 : 1 ≤ Nat.sqrt (naive_ny h * naive_ny h * max_pts /
        (naive_nx cos_rad lat_mid w * naive_ny h)) := by
      apply Nat.le_sqrt.mpr
      rw [Nat.mul_comm (naive_nx cos_rad lat_mid w) (naive_ny h),
        Nat.mul_assoc, Nat.mul_div_mul_left _ _ hny, Nat.one_mul]
      exact (Nat.one_le_div_iff hnx).mpr hx
    rw [Nat.max_eq_right hs1, Nat.max_eq_right hs2]
    exact nat_sqrt_mul_le _ _ _ hnx hny
  · rw [if_neg hcond, if_neg hcond]
    exact Nat.not_lt.mp hcond

/-- C1 (amended): for a ring with positive bounding-box width and height and
a positive budget, the scaled grid of `_estimate_deg_step` has at most
`max_pts` points — and consequently `_sample_polyfill` returns at most
`max_pts` cells — PROVIDED neither grid dimension is clamped back up by the
`max(1, ...)` after scaling, i.e. provided each naive dimension is at most
`max_pts` times the other.  (Without that proviso the bound fails, see the
counterexample.) -/
theorem sampler_point_budget {Cell : Type} [DecidableEq Cell]
    (toCell : ℚ → ℚ → ℕ → Cell) (cos_rad : ℚ → ℚ) (ring : List LngLat)
    (res max_pts : ℕ) (hm : 0 < max_pts)
    (hw : 0 < bbox_w (_normalize_ring_lnglat ring))
    (hh : 0 < bbox_h (_normalize_ring_lnglat ring))
    (hx : naive_nx cos_rad (lat_mid_of (_normalize_ring_lnglat ring))
            (bbox_w (_normalize_ring_lnglat ring)) ≤
          naive_ny (bbox_h (_normalize_ring_lnglat ring)) * max_pts)
    (hy : naive_ny (bbox_h (_normalize_ring_lnglat ring)) ≤
          naive_nx cos_rad (lat_mid_of (_normalize_ring_lnglat ring))
            (bbox_w (_normalize_ring_lnglat ring)) * max_pts) :
    (_estimate_deg_step cos_rad res (lat_mid_of (_normalize_ring_lnglat ring)) max_pts
        (bbox_w (_normalize_ring_lnglat ring)) (bbox_h (_normalize_ring_lnglat ring))).2.2.1 *
      (_estimate_deg_step cos_rad res (lat_mid_of (_normalize_ring_lnglat ring)) max_pts
        (bbox_w (_normalize_ring_lnglat ring)) (bbox_h (_normalize_ring_lnglat ring))).2.2.2 ≤
      max_pts ∧
    (_sample_polyfill toCell cos_rad ring res max_pts).length ≤ max_pts := by
  have hcount := estimate_counts_le cos_rad res (lat_mid_of (_normalize_ring_lnglat ring))
    max_pts (bbox_w (_normalize_ring_lnglat ring)) (bbox_h (_normalize_ring_lnglat ring))
    hm hx hy
  refine ⟨hcount, ?_⟩
  rw [sample_polyfill_eq]
  simp only
  split
  · simpa using hm
  · split
    · simpa using hm
    · exact le_trans
        (grid_cells_length_le toCell (_normalize_ring_lnglat ring) res _ _ _ _ _ _) hcount

/-- C1 witness: a 1/250° square with budget 4; the naive 2×2 grid is scaled
to 1×1 and both the grid size and the sampled cell count stay within the
budget. -/
theorem sampler_point_budget_witness :
    (_estimate_deg_step one_cos 9 (lat_mid_of (_normalize_ring_lnglat
        [((0 : ℚ), (0 : ℚ)), (1/250, 0), (1/250, 1/250), (0, 1/250)])) 4
      (bbox_w (_normalize_ring_lnglat
        [((0 : ℚ), (0 : ℚ)), (1/250, 0), (1/250, 1/250), (0, 1/250)]))
      (bbox_h (_normalize_ring_lnglat
        [((0 : ℚ), (0 : ℚ)), (1/250, 0), (1/250, 1/250), (0, 1/250)]))).2.2.1 *
    (_estimate_deg_step one_cos 9 (lat_mid_of (_normalize_ring_lnglat
        [((0 : ℚ), (0 : ℚ)), (1/250, 0), (1/250, 1/250), (0, 1/250)])) 4
      (bbox_w (_normalize_ring_lnglat
        [((0 : ℚ), (0 : ℚ)), (1/250, 0), (1/250, 1/250), (0, 1/250)]))
      (bbox_h (_normalize_ring_lnglat
        [((0 : ℚ), (0 : ℚ)), (1/250, 0), (1/250, 1/250), (0, 1/250)]))).2.2.2 ≤ 4 ∧
    (_sample_polyfill id_cell one_cos
      [((0 : ℚ), (0 : ℚ)), (1/250, 0), (1/250, 1/250), (0, 1/250)] 9 4).length ≤ 4 := by
  have hnorm : _normalize_ring_lnglat
      [((0 : ℚ), (0 : ℚ)), (1/250, 0), (1/250, 1/250), (0, 1/250)] =
      [((0 : ℚ), (0 : ℚ)), (1/250, 0), (1/250, 1/250), (0, 1/250)] := by
    norm_num [_normalize_ring_lnglat, List.getLastD, Prod.ext_iff]
  have hbb : _bbox [((0 : ℚ), (0 : ℚ)), (1/250, 0), (1/250, 1/250), (0, 1/250)] =
      (0, 0, 1/250, 1/250) := by
    norm_num [_bbox, min_def, max_def, Prod.ext_iff]
  have hw : bbox_w [((0 : ℚ), (0 : ℚ)), (1/250, 0), (1/250, 1/250), (0, 1/250)] = 1/250 := by
    rw [bbox_w, hbb]
    norm_num
  have hh : bbox_h [((0 : ℚ), (0 : ℚ)), (1/250, 0), (1/250, 1/250), (0, 1/250)] = 1/250 := by
    rw [bbox_h, hbb]
    norm_num
  have hmid : lat_mid_of [((0 : ℚ), (0 : ℚ)), (1/250, 0), (1/250, 1/250), (0, 1/250)] =
      1/500 := by
    rw [lat_mid_of, hbb]
    norm_num
  have hc1 : (⌈(1:ℚ)/250 / (2 / 1000 / max (one_cos (1/500)) (1 / 10))⌉ : ℤ) = 2 := by
    have harg : (1:ℚ)/250 / (2 / 1000 / max (one_cos (1/500)) (1 / 10)) = 2 := by
      norm_num [one_cos, max_def]
    rw [harg]
    exact ceil_eval (by norm_num) (by norm_num)
  have hc2 : (⌈(1:ℚ)/250 / (2 / 1000)⌉ : ℤ) = 2 := by
    have harg : (1:ℚ)/250 / (2 / 1000) = 2 := by norm_num
    rw [harg]
    exact ceil_eval (by norm_num) (by norm_num)
  have hnx : naive_nx one_cos (1/500) (1/250) = 2 := by
    unfold naive_nx
    rw [hc1]
    rfl
  have hny : naive_ny (1/250 : ℚ) = 2 := by
    unfold naive_ny
    rw [hc2]
    rfl
  apply sampler_point_budget id_cell one_cos _ 9 4 (by norm_num)
  · rw [hnorm, hw]
    norm_num
  · rw [hnorm, hh]
    norm_num
  · rw [hnorm, hw, hh, hmid, hnx, hny]
    norm_num
  · rw [hnorm, hw, hh, hmid, hnx, hny]
    norm_num

set_option maxRecDepth 8000 in
/-- C1 counterexample: for `budget_cex_ring` (positive 0.001° × 0.008°
bounding box) and budget `max_pts = 1`, the naive 1×4 grid is scaled to 1×2
— `max(1, int(nx/scale))` clamps the longitude dimension back up — so the
scaled grid has 2 > 1 points and `_sample_polyfill` returns 2 > 1 cells,
refuting the claimed invariant `nx * ny ≤ max_pts`. -/
theorem sampler_point_budget_counterexample :
    (0 < 1) ∧
    0 < bbox_w (_normalize_ring_lnglat budget_cex_ring) ∧
    0 < bbox_h (_normalize_ring_lnglat budget_cex_ring) ∧
    (_estimate_deg_step one_cos 9 (lat_mid_of (_normalize_ring_lnglat budget_cex_ring)) 1
        (bbox_w (_normalize_ring_lnglat budget_cex_ring))
        (bbox_h (_normalize_ring_lnglat budget_cex_ring))).2.2.1 *
      (_estimate_deg_step one_cos 9 (lat_mid_of (_normalize_ring_lnglat budget_cex_ring)) 1
        (bbox_w (_normalize_ring_lnglat budget_cex_ring))
        (bbox_h (_normalize_ring_lnglat budget_cex_ring))).2.2.2 = 2 ∧
    (_sample_polyfill id_cell one_cos budget_cex_ring 9 1).length = 2 := by
  have hnorm : _normalize_ring_lnglat budget_cex_ring = budget_cex_ring := by
    norm_num [_normalize_ring_lnglat, budget_cex_ring, List.getLastD, Prod.ext_iff]
  have hbb : _bbox budget_cex_ring = (0, 0, 1/1000, 1/125) := by
    norm_num [_bbox, budget_cex_ring, min_def, max_def, Prod.ext_iff]
  have hw : bbox_w budget_cex_ring = 1/1000 := by
    rw [bbox_w, hbb]
    norm_num
  have hh : bbox_h budget_cex_ring = 1/125 := by
    rw [bbox_h, hbb]
    norm_num
  have hmid : lat_mid_of budget_cex_ring = 1/250 := by
    rw [lat_mid_of, hbb]
    norm_num
  have hc1 : (⌈(1:ℚ)/1000 / (2 / 1000 / max (one_cos (1/250)) (1 / 10))⌉ : ℤ) = 1 := by
    have harg : (1:ℚ)/1000 / (2 / 1000 / max (one_cos (1/250)) (1 / 10)) = 1/2 := by
      norm_num [one_cos, max_def]
    rw [harg]
    exact ceil_eval (by norm_num) (by norm_num)
  have hc2 : (⌈(1:ℚ)/125 / (2 / 1000)⌉ : ℤ) = 4 := by
    have harg : (1:ℚ)/125 / (2 / 1000) = 4 := by norm_num
    rw [harg]
    exact ceil_eval (by norm_num) (by norm_num)
  have hnx : naive_nx one_cos (1/250) (1/1000) = 1 := by
    unfold naive_nx
    rw [hc1]
    rfl
  have hny : naive_ny (1/125 : ℚ) = 4 := by
    unfold naive_ny
    rw [hc2]
    rfl
  have hsq0 : Nat.sqrt (1 * 1 * 1 / (1 * 4)) = 0 := by
    rw [show (1 * 1 * 1 / (1 * 4) : ℕ) = 0 from by norm_num, Nat.sqrt_zero]
  have hsq4 : Nat.sqrt (4 * 4 * 1 / (1 * 4)) = 2 := by
    rw [show (4 * 4 * 1 / (1 * 4) : ℕ) = 2 * 2 from by norm_num, Nat.sqrt_eq]
  have hest : _estimate_deg_step one_cos 9 (1/250) 1 (1/1000) (1/125) =
      (1/1000, 1/250, 1, 2) := by
    simp only [_estimate_deg_step]
    rw [hnx, hny]
    rw [if_pos (by norm_num), if_pos (by norm_num), hsq0, hsq4]
    norm_num
  have hpnp1 : _point_in_poly (1/2000) (1/500) budget_cex_ring = true := by
    norm_num [_point_in_poly, budget_cex_ring, edge_crosses, edge_denom, List.range_succ,
      List.getD_cons_zero, List.getD_cons_succ]
  have hpnp2 : _point_in_poly (1/2000) (3/500) budget_cex_ring = true := by
    norm_num [_point_in_poly, budget_cex_ring, edge_crosses, edge_denom, List.range_succ,
      List.getD_cons_zero, List.getD_cons_succ]
  have hgrid : grid_cells id_cell budget_cex_ring 9 0 0 (1/1000) (1/250) 1 2 =
      [((1/500 : ℚ), (1/2000 : ℚ)), ((3/500 : ℚ), (1/2000 : ℚ))] := by
    norm_num [grid_cells, List.range_succ, insert_cell, id_cell, hpnp1, hpnp2,
      Prod.ext_iff]
  refine ⟨by norm_num, ?_, ?_, ?_, ?_⟩
  · rw [hnorm, hw]
    norm_num
  · rw [hnorm, hh]
    norm_num
  · rw [hnorm, hw, hh, hmid, hest]
    norm_num
  · rw [sample_polyfill_eq]
    simp only
    rw [hnorm]
    rw [if_neg (by rw [hw, hh]; norm_num)]
    rw [hw, hh, hmid, hest, hbb]
    norm_num [hgrid]
    rw [if_neg (by simp)]
    rfl
